import Mathlib

/-!
Shallow embedding of `src/model.py` from the repository
`hanfried/bert-predicting-movie-reviews`.

Tensors of shape `[batch, d]` are embedded as functions `Fin batch → Fin d → ℝ`
(integer tensors as `… → ℤ`).  The external collaborators — the pretrained
BERT encoder loaded from the hub, the random dropout mask drawn at run time,
and the trainable variables `output_weights` / `output_bias` held in the
TensorFlow graph — are packaged in a `ModelEnv` parameter, so that the local
computation of `create_model` is an explicit function of them.
-/

open Real Filter

noncomputable section

/-- TensorFlow `tf.one_hot(l, depth)`: a vector with a `1` at index `l` and `0`
elsewhere; an out-of-range `l` yields the all-zero vector. -/
def tf_one_hot (l : ℤ) (depth : ℕ) : Fin depth → ℝ :=
  fun j => if ((j : ℕ) : ℤ) = l then 1 else 0

/-- TensorFlow `tf.nn.log_softmax` on one row: `x j - log (Σ k, exp (x k))`. -/
def tf_log_softmax {N : ℕ} (x : Fin N → ℝ) : Fin N → ℝ :=
  fun j => x j - Real.log (∑ k, Real.exp (x k))

/-- TensorFlow `tf.nn.dropout(x, keep_prob)` with the run-time randomness made
explicit: `mask i j = true` means unit `(i,j)` is kept (and rescaled by
`1/keep_prob`), `false` means it is zeroed. -/
def tf_nn_dropout {B H : ℕ} (x : Fin B → Fin H → ℝ) (keep_prob : ℝ)
    (mask : Fin B → Fin H → Bool) : Fin B → Fin H → ℝ :=
  fun i j => if mask i j then x i j / keep_prob else 0

/-- TensorFlow `tf.matmul(a, w, transpose_b=True)` for `a : [B,H]`, `w : [N,H]`. -/
def tf_matmul_transpose_b {B H N : ℕ} (a : Fin B → Fin H → ℝ)
    (w : Fin N → Fin H → ℝ) : Fin B → Fin N → ℝ :=
  fun i j => ∑ k, a i k * w j k

/-- TensorFlow `tf.nn.bias_add`. -/
def tf_bias_add {B N : ℕ} (v : Fin B → Fin N → ℝ) (bias : Fin N → ℝ) :
    Fin B → Fin N → ℝ :=
  fun i j => v i j + bias j

/-- TensorFlow `tf.reduce_mean` over a rank-1 tensor of length `B`. -/
def tf_reduce_mean {B : ℕ} (x : Fin B → ℝ) : ℝ :=
  (∑ i, x i) / (B : ℝ)

/-- TensorFlow `tf.argmax(x, axis=-1)` on one row: the smallest index attaining
the maximum (ties broken towards the earlier index, as in TensorFlow). -/
def tf_argmax {N : ℕ} [NeZero N] (x : Fin N → ℝ) : Fin N :=
  (List.finRange N).foldl (fun best j => if x best < x j then j else best)
    ⟨0, Nat.pos_of_ne_zero (NeZero.ne N)⟩

/-- TensorFlow `tf.squeeze`: removes singleton dimensions.  On an indexed family
this is the identity on values (only the tensor rank changes). -/
def tf_squeeze {B : ℕ} {α : Type} (x : Fin B → α) : Fin B → α := x

/-- The externals consumed by `create_model`: the pooled output of the hub BERT
module (a black-box function of the three input tensors), the two trainable
variables created by `tf.get_variable`, and the dropout mask drawn by
`tf.nn.dropout`.  `B` = batch size, `L` = max sequence length, `H` = hidden
size, `N` = num_labels. -/
structure ModelEnv (B L H N : ℕ) where
  bertPooledOutput : (Fin B → Fin L → ℤ) → (Fin B → Fin L → ℤ) →
    (Fin B → Fin L → ℤ) → Fin B → Fin H → ℝ
  outputWeights : Fin N → Fin H → ℝ
  outputBias : Fin N → ℝ
  dropoutMask : Fin B → Fin H → Bool

/-- Return value of `create_model`: the source returns either the pair
`(predicted_labels, log_probs)` (prediction) or the triple
`(loss, predicted_labels, log_probs)` (train/eval). -/
inductive CreateModelResult (B N : ℕ) where
  | predict (predicted_labels : Fin B → Fin N) (log_probs : Fin B → Fin N → ℝ)
  | trainEval (loss : ℝ) (predicted_labels : Fin B → Fin N)
      (log_probs : Fin B → Fin N → ℝ)

/-- The `log_probs` component (present in both shapes of the result). -/
def CreateModelResult.logProbsOf {B N : ℕ} :
    CreateModelResult B N → Fin B → Fin N → ℝ
  | .predict _ lp => lp
  | .trainEval _ _ lp => lp

/-- The `predicted_labels` component (present in both shapes of the result). -/
def CreateModelResult.predictedLabelsOf {B N : ℕ} :
    CreateModelResult B N → Fin B → Fin N
  | .predict pl _ => pl
  | .trainEval _ pl _ => pl

/-- The `loss` component: present only on the train/eval shape. -/
def CreateModelResult.lossOf {B N : ℕ} : CreateModelResult B N → Option ℝ
  | .predict _ _ => none
  | .trainEval l _ _ => some l

/-- Embedding of `create_model` (src/model.py lines 28-84).  `num_labels` is
the type index `N`; the graph externals live in `env`.  The body follows the
source line by line: pooled output, dropout with `keep_prob=0.9`, logits by
`matmul(…, transpose_b=True)` plus bias, `log_softmax`, one-hot labels,
squeezed argmax; prediction returns the pair, train/eval additionally computes
`per_example_loss = -Σ one_hot·log_probs` and its batch mean. -/
def create_model {B L H N : ℕ} [NeZero N] (env : ModelEnv B L H N)
    (is_predicting : Bool)
    (input_ids input_mask segment_ids : Fin B → Fin L → ℤ)
    (labels : Fin B → ℤ) : CreateModelResult B N :=
  let output_layer : Fin B → Fin H → ℝ :=
    env.bertPooledOutput input_ids input_mask segment_ids
  let dropout_layer : Fin B → Fin H → ℝ :=
    tf_nn_dropout output_layer 0.9 env.dropoutMask
  let logits : Fin B → Fin N → ℝ :=
    tf_bias_add (tf_matmul_transpose_b dropout_layer env.outputWeights)
      env.outputBias
  let log_probs : Fin B → Fin N → ℝ := fun i => tf_log_softmax (logits i)
  let one_hot_labels : Fin B → Fin N → ℝ := fun i => tf_one_hot (labels i) N
  let predicted_labels : Fin B → Fin N :=
    tf_squeeze (fun i => tf_argmax (log_probs i))
  if is_predicting then
    .predict predicted_labels log_probs
  else
    let per_example_loss : Fin B → ℝ :=
      fun i => -(∑ j, one_hot_labels i j * log_probs i j)
    let loss : ℝ := tf_reduce_mean per_example_loss
    .trainEval loss predicted_labels log_probs

/-- A streaming metric op created by the `tf.metrics` /
`tf.contrib.metrics` library: an external black box, modelled by the
constructor it was built with and the two tensors it was given. -/
inductive MetricOp (B N : ℕ) where
  | accuracy (label_ids : Fin B → ℤ) (predicted_labels : Fin B → Fin N)
  | f1Score (label_ids : Fin B → ℤ) (predicted_labels : Fin B → Fin N)
  | auc (label_ids : Fin B → ℤ) (predicted_labels : Fin B → Fin N)
  | recall (label_ids : Fin B → ℤ) (predicted_labels : Fin B → Fin N)
  | precision (label_ids : Fin B → ℤ) (predicted_labels : Fin B → Fin N)
  | truePositives (label_ids : Fin B → ℤ) (predicted_labels : Fin B → Fin N)
  | trueNegatives (label_ids : Fin B → ℤ) (predicted_labels : Fin B → Fin N)
  | falsePositives (label_ids : Fin B → ℤ) (predicted_labels : Fin B → Fin N)
  | falseNegatives (label_ids : Fin B → ℤ) (predicted_labels : Fin B → Fin N)

/-- Embedding of `metric_fn` (src/model.py lines 94-114): builds the nine
streaming metric ops and returns them as a key→op mapping (a Python dict,
embedded as an association list in insertion order). -/
def metric_fn {B N : ℕ} (label_ids : Fin B → ℤ)
    (predicted_labels : Fin B → Fin N) : List (String × MetricOp B N) :=
  [("eval_accuracy", .accuracy label_ids predicted_labels),
   ("f1_score", .f1Score label_ids predicted_labels),
   ("auc", .auc label_ids predicted_labels),
   ("precision", .precision label_ids predicted_labels),
   ("recall", .recall label_ids predicted_labels),
   ("true_positives", .truePositives label_ids predicted_labels),
   ("true_negatives", .trueNegatives label_ids predicted_labels),
   ("false_positives", .falsePositives label_ids predicted_labels),
   ("false_negatives", .falseNegatives label_ids predicted_labels)]

/-- The training op returned by the external collaborator
`bert.optimization.create_optimizer`: a black box, modelled by the arguments
it was constructed from. -/
structure TrainOp where
  loss : ℝ
  learning_rate : ℝ
  num_train_steps : ℕ
  num_warmup_steps : ℕ
  use_tpu : Bool

/-- Embedding of the call to `bert.optimization.create_optimizer`
(src/model.py lines 145-147). -/
def create_optimizer (loss learning_rate : ℝ)
    (num_train_steps num_warmup_steps : ℕ) (use_tpu : Bool) : TrainOp :=
  ⟨loss, learning_rate, num_train_steps, num_warmup_steps, use_tpu⟩

/-- The mode strings of `tf.estimator.ModeKeys`. -/
def ModeKeys.TRAIN : String := "train"

/-- The EVAL mode string of `tf.estimator.ModeKeys`. -/
def ModeKeys.EVAL : String := "eval"

/-- The PREDICT mode string of `tf.estimator.ModeKeys` (its value is
`"infer"`). -/
def ModeKeys.PREDICT : String := "infer"

/-- A value of the features dict: the three sequence tensors have shape
`[B, L]`, the `label_ids` tensor has shape `[B]`. -/
inductive FeatureTensor (B L : ℕ) where
  | seq (v : Fin B → Fin L → ℤ)
  | ids (v : Fin B → ℤ)

/-- The features mapping handed to `model_fn`: a Python dict from string keys
to tensors, embedded as a partial lookup function. -/
structure Features (B L : ℕ) where
  entries : String → Option (FeatureTensor B L)

/-- Subscripting `features[key]` where a `[B, L]` integer tensor is expected;
a missing key is a Python `KeyError`, a tensor of the wrong shape fails
downstream — both are embedded as errors. -/
def Features.getSeq {B L : ℕ} (f : Features B L) (key : String) :
    Except String (Fin B → Fin L → ℤ) :=
  match f.entries key with
  | some (.seq v) => .ok v
  | some (.ids _) => .error ("shape mismatch: " ++ key)
  | none => .error ("KeyError: " ++ key)

/-- Subscripting `features[key]` where a `[B]` integer tensor is expected. -/
def Features.getIds {B L : ℕ} (f : Features B L) (key : String) :
    Except String (Fin B → ℤ) :=
  match f.entries key with
  | some (.ids v) => .ok v
  | some (.seq _) => .error ("shape mismatch: " ++ key)
  | none => .error ("KeyError: " ++ key)

/-- The features dict holding exactly the four tensors `model_fn` reads, under
their expected keys. -/
def featuresOf {B L : ℕ} (input_ids input_mask segment_ids : Fin B → Fin L → ℤ)
    (label_ids : Fin B → ℤ) : Features B L :=
  ⟨fun key =>
    if key = "input_ids" then some (.seq input_ids)
    else if key = "input_mask" then some (.seq input_mask)
    else if key = "segment_ids" then some (.seq segment_ids)
    else if key = "label_ids" then some (.ids label_ids)
    else none⟩

/-- The predictions dict `{"probabilities": log_probs, "labels":
predicted_labels}` built on the PREDICT path. -/
structure PredictionsDict (B N : ℕ) where
  probabilities : Fin B → Fin N → ℝ
  labels : Fin B → Fin N

/-- Embedding of `tf.estimator.EstimatorSpec`: the mode plus the optional
output fields that the source passes to its three constructor calls. -/
structure EstimatorSpec (B N : ℕ) where
  mode : String
  loss : Option ℝ
  train_op : Option TrainOp
  eval_metric_ops : Option (List (String × MetricOp B N))
  predictions : Option (PredictionsDict B N)

/-- A record of one call `model_fn` makes to a separately defined function:
used to state which calls happen on which mode path. -/
inductive Effect where
  | callCreateModel (is_predicting : Bool)
  | callCreateOptimizer
  | callMetricFn
deriving DecidableEq

/-- Embedding of the closure `model_fn` (src/model.py lines 126-165), with the
closed-over builder parameters and the graph externals passed explicitly and a
trace of the calls it performs.  It reads the four feature tensors
unconditionally (a missing key is an error in every mode), computes
`is_predicting`, and on the non-predict path calls `create_model`, then
`create_optimizer`, then `metric_fn`, before branching on TRAIN vs EVAL; the
Python tuple unpacking of `create_model`'s result is embedded as a match whose
impossible arm is an error.  `labels` and `params` are unused, as in the
source. -/
def model_fn {B L H N : ℕ} [NeZero N] {α β : Type} (env : ModelEnv B L H N)
    (learning_rate : ℝ) (num_train_steps num_warmup_steps : ℕ)
    (features : Features B L) (labels : α) (mode : String) (params : β) :
    Except String (List Effect × EstimatorSpec B N) := do
  let input_ids ← features.getSeq "input_ids"
  let input_mask ← features.getSeq "input_mask"
  let segment_ids ← features.getSeq "segment_ids"
  let label_ids ← features.getIds "label_ids"
  let is_predicting : Bool := mode == ModeKeys.PREDICT
  if !is_predicting then
    match create_model env is_predicting input_ids input_mask segment_ids
        label_ids with
    | .trainEval loss predicted_labels _log_probs =>
      let train_op :=
        create_optimizer loss learning_rate num_train_steps num_warmup_steps
          false
      let eval_metrics := metric_fn label_ids predicted_labels
      let trace := [Effect.callCreateModel is_predicting,
        Effect.callCreateOptimizer, Effect.callMetricFn]
      if mode == ModeKeys.TRAIN then
        .ok (trace, ⟨mode, some loss, some train_op, none, none⟩)
      else
        .ok (trace, ⟨mode, some loss, none, some eval_metrics, none⟩)
    | .predict _ _ => .error "cannot unpack pair into (loss, labels, probs)"
  else
    match create_model env is_predicting input_ids input_mask segment_ids
        label_ids with
    | .predict predicted_labels log_probs =>
      .ok ([Effect.callCreateModel is_predicting],
        ⟨mode, none, none, none, some ⟨log_probs, predicted_labels⟩⟩)
    | .trainEval _ _ _ =>
      .error "cannot unpack triple into (labels, probs)"

/-- Embedding of `model_fn_builder` (src/model.py lines 119-168): closes over
the hyper-parameters and returns `model_fn`.  `num_labels` is the type index
`N`; the graph externals `env` are passed alongside. -/
def model_fn_builder {B L H N : ℕ} [NeZero N] {α β : Type}
    (env : ModelEnv B L H N) (learning_rate : ℝ)
    (num_train_steps num_warmup_steps : ℕ) :
    Features B L → α → String → β →
      Except String (List Effect × EstimatorSpec B N) :=
  fun features labels mode params =>
    model_fn env learning_rate num_train_steps num_warmup_steps features
      labels mode params

/-- A concrete all-zero environment on the smallest dimensions, used to
evaluate `model_fn` at explicit inputs. -/
def zeroEnv : ModelEnv 1 1 1 1 :=
  ⟨fun _ _ _ _ _ => 0, fun _ _ => 0, fun _ => 0, fun _ _ => true⟩

/-- A features dict with no entries at all (in particular no `"label_ids"`). -/
def emptyFeatures (B L : ℕ) : Features B L := ⟨fun _ => none⟩

/-- An environment whose pooled output is `t` at the hidden unit indexed by
each example's label and `0` elsewhere, with identity output weights, zero
bias and an all-keep dropout mask: as `t → ∞` the softmax distribution
produced by `create_model` tends to the one-hot encoding of the true label of
every example. -/
def oneHotEnv (B n : ℕ) (labels : Fin B → ℤ) (t : ℝ) :
    ModelEnv B 0 (n + 1) (n + 1) :=
  ⟨fun _ _ _ i k => if ((k : ℕ) : ℤ) = labels i then t else 0,
   fun j k => if j = k then 1 else 0,
   fun _ => 0,
   fun _ _ => true⟩

/-- The logits computed inside `create_model`: the affine head applied to the
dropout-filtered pooled output. -/
def logitsOf {B L H N : ℕ} (env : ModelEnv B L H N)
    (input_ids input_mask segment_ids : Fin B → Fin L → ℤ) :
    Fin B → Fin N → ℝ :=
  tf_bias_add (tf_matmul_transpose_b
    (tf_nn_dropout (env.bertPooledOutput input_ids input_mask segment_ids)
      0.9 env.dropoutMask) env.outputWeights) env.outputBias

/-- The foldl underlying `tf_argmax` never moves to a smaller value: the
result dominates the start value and every scanned element. -/
theorem argmax_foldl_dominates {N : ℕ} (x : Fin N → ℝ) (l : List (Fin N))
    (b : Fin N) :
    x b ≤ x (l.foldl (fun best j => if x best < x j then j else best) b) ∧
      ∀ j ∈ l, x j ≤ x (l.foldl (fun best j => if x best < x j then j else best) b) := by
  induction l generalizing b with
  | nil => exact ⟨le_refl _, by simp⟩
  | cons a t ih =>
    simp only [List.foldl_cons]
    have hb : x b ≤ x (if x b < x a then a else b) := by
      split
      · exact le_of_lt ‹_›
      · exact le_refl _
    have ha : x a ≤ x (if x b < x a then a else b) := by
      split
      · exact le_refl _
      · exact le_of_not_lt ‹_›
    obtain ⟨h1, h2⟩ := ih (if x b < x a then a else b)
    refine ⟨le_trans hb h1, ?_⟩
    intro j hj
    rcases List.mem_cons.mp hj with h | h
    · subst h
      exact le_trans ha h1
    · exact h2 j h

/-- `tf_argmax` attains the maximum of the row. -/
theorem tf_argmax_isMax {N : ℕ} [NeZero N] (x : Fin N → ℝ) (j : Fin N) :
    x j ≤ x (tf_argmax x) :=
  (argmax_foldl_dominates x (List.finRange N) _).2 j (List.mem_finRange j)

/-- The exponentials of a `tf_log_softmax` row sum to `1`. -/
theorem sum_exp_tf_log_softmax {n : ℕ} (x : Fin (n + 1) → ℝ) :
    ∑ j, Real.exp (tf_log_softmax x j) = 1 := by
  have hS : 0 < ∑ k, Real.exp (x k) :=
    Finset.sum_pos (fun k _ => Real.exp_pos _) ⟨0, Finset.mem_univ 0⟩
  simp only [tf_log_softmax, Real.exp_sub, Real.exp_log hS]
  rw [← Finset.sum_div, div_self (ne_of_gt hS)]

/-- Every entry of a `tf_log_softmax` row is nonpositive. -/
theorem tf_log_softmax_nonpos {n : ℕ} (x : Fin (n + 1) → ℝ) (j : Fin (n + 1)) :
    tf_log_softmax x j ≤ 0 := by
  have hS : 0 < ∑ k, Real.exp (x k) :=
    Finset.sum_pos (fun k _ => Real.exp_pos _) ⟨0, Finset.mem_univ 0⟩
  have h1 : Real.exp (x j) ≤ ∑ k, Real.exp (x k) :=
    Finset.single_le_sum (fun k _ => (Real.exp_pos (x k)).le) (Finset.mem_univ j)
  have h2 : x j ≤ Real.log (∑ k, Real.exp (x k)) := by
    have := Real.log_le_log (Real.exp_pos (x j)) h1
    rwa [Real.log_exp] at this
  simpa [tf_log_softmax, sub_nonpos] using h2

/-- Dotting a one-hot vector against a row picks out the entry at the hot
index. -/
theorem sum_one_hot_mul {n : ℕ} (l : ℤ) (jl : Fin (n + 1))
    (hjl : ((jl : ℕ) : ℤ) = l) (v : Fin (n + 1) → ℝ) :
    ∑ j, tf_one_hot l (n + 1) j * v j = v jl := by
  rw [Finset.sum_eq_single jl]
  · simp [tf_one_hot, hjl]
  · intro b _ hb
    have hne : ((b : ℕ) : ℤ) ≠ l := by
      intro he
      exact hb (Fin.ext (by exact_mod_cast hjl ▸ he))
    simp [tf_one_hot, hne]
  · simp

/-- C3.  For every batch with a labels vector supplied (`is_predicting =
false`), `create_model`'s loss component is the batch mean, over the examples,
of the negative sum over the label axis of the depth-`num_labels` one-hot
encoding of the label times the log-probabilities. -/
theorem claim_c3 {B L H : ℕ} (n : ℕ) (env : ModelEnv B L H (n + 1))
    (input_ids input_mask segment_ids : Fin B → Fin L → ℤ)
    (labels : Fin B → ℤ) :
    (create_model env false input_ids input_mask segment_ids labels).lossOf =
      some (tf_reduce_mean (fun i => -(∑ j, tf_one_hot (labels i) (n + 1) j *
        (create_model env false input_ids input_mask segment_ids
          labels).logProbsOf i j))) :=
  rfl

/-- C4.  For every batch and every example, the `predicted_labels` component
returned by `create_model` (the squeezed argmax) attains the maximum of that
example's row of `log_probs`: every entry of the row is at most the entry at
the predicted index.  (Squeezing only removes singleton dimensions, so it is
value-preserving; on ties TensorFlow's argmax, like the embedding, keeps the
smallest index.) -/
theorem claim_c4 {B L H : ℕ} (n : ℕ) (env : ModelEnv B L H (n + 1))
    (is_predicting : Bool)
    (input_ids input_mask segment_ids : Fin B → Fin L → ℤ)
    (labels : Fin B → ℤ) (i : Fin B) (j : Fin (n + 1)) :
    (create_model env is_predicting input_ids input_mask segment_ids
        labels).logProbsOf i j ≤
      (create_model env is_predicting input_ids input_mask segment_ids
        labels).logProbsOf i
        ((create_model env is_predicting input_ids input_mask segment_ids
          labels).predictedLabelsOf i) := by
  cases is_predicting <;>
    exact tf_argmax_isMax _ j

/-- C6.  `create_model` applies dropout with keep-probability `0.9` to the
pooled representation on every invocation: for both values of
`is_predicting`, the returned log-probabilities are the log-softmax of the
affine map applied to `tf_nn_dropout (pooled) 0.9`, and the prediction-mode
and train/eval-mode results agree on their `log_probs` and
`predicted_labels` components — dropout is not gated by the mode. -/
theorem claim_c6 {B L H : ℕ} (n : ℕ) (env : ModelEnv B L H (n + 1))
    (input_ids input_mask segment_ids : Fin B → Fin L → ℤ)
    (labels : Fin B → ℤ) :
    ∀ is_predicting : Bool,
      ((create_model env is_predicting input_ids input_mask segment_ids
          labels).logProbsOf =
        fun i => tf_log_softmax
          (tf_bias_add (tf_matmul_transpose_b
            (tf_nn_dropout (env.bertPooledOutput input_ids input_mask segment_ids)
              0.9 env.dropoutMask) env.outputWeights) env.outputBias i)) ∧
      (create_model env true input_ids input_mask segment_ids
          labels).logProbsOf =
        (create_model env false input_ids input_mask segment_ids
          labels).logProbsOf ∧
      (create_model env true input_ids input_mask segment_ids
          labels).predictedLabelsOf =
        (create_model env false input_ids input_mask segment_ids
          labels).predictedLabelsOf := by
  intro is_predicting
  refine ⟨?_, rfl, rfl⟩
  cases is_predicting <;> rfl

/-- C8.  For every batch and every example, the exponentials of that example's
row of `log_probs` returned by `create_model` sum to `1`. -/
theorem claim_c8 {B L H : ℕ} (n : ℕ) (env : ModelEnv B L H (n + 1))
    (is_predicting : Bool)
    (input_ids input_mask segment_ids : Fin B → Fin L → ℤ)
    (labels : Fin B → ℤ) (i : Fin B) :
    ∑ j, Real.exp ((create_model env is_predicting input_ids input_mask
      segment_ids labels).logProbsOf i j) = 1 := by
  cases is_predicting <;>
    exact sum_exp_tf_log_softmax _

/-- C5.  `metric_fn` returns a mapping with exactly nine keys — the accuracy,
F1-score, AUC, precision, recall, true-positive, true-negative,
false-positive and false-negative metrics (the accuracy metric is stored
under the literal key `"eval_accuracy"`), no more and no fewer, and the keys
are pairwise distinct — for every pair of label-id and predicted-label
inputs. -/
theorem claim_c5 {B N : ℕ} (label_ids : Fin B → ℤ)
    (predicted_labels : Fin B → Fin N) :
    (metric_fn label_ids predicted_labels).map Prod.fst =
      ["eval_accuracy", "f1_score", "auc", "precision", "recall",
       "true_positives", "true_negatives", "false_positives",
       "false_negatives"] ∧
      ((metric_fn label_ids predicted_labels).map Prod.fst).Nodup := by
  have hnd : (["eval_accuracy", "f1_score", "auc", "precision", "recall",
      "true_positives", "true_negatives", "false_positives",
      "false_negatives"] : List String).Nodup := by decide
  exact ⟨rfl, hnd⟩

/-- C1.  The output bundle of `model_fn` has exactly the mode-dependent
structure: PREDICT yields a predictions bundle and no loss, train op or
metrics; TRAIN yields a loss and a train op and no metrics or predictions;
EVAL yields a loss and the metrics bundle and no train op or predictions. -/
theorem claim_c1 {B L H : ℕ} (n : ℕ) {α β : Type} (env : ModelEnv B L H (n + 1))
    (learning_rate : ℝ) (num_train_steps num_warmup_steps : ℕ)
    (input_ids input_mask segment_ids : Fin B → Fin L → ℤ)
    (label_ids : Fin B → ℤ) (labels : α) (params : β) :
    (∃ eff spec, model_fn env learning_rate num_train_steps num_warmup_steps
        (featuresOf input_ids input_mask segment_ids label_ids) labels
        ModeKeys.PREDICT params = .ok (eff, spec) ∧
      spec.predictions.isSome ∧ spec.loss = none ∧ spec.train_op = none ∧
      spec.eval_metric_ops = none) ∧
    (∃ eff spec, model_fn env learning_rate num_train_steps num_warmup_steps
        (featuresOf input_ids input_mask segment_ids label_ids) labels
        ModeKeys.TRAIN params = .ok (eff, spec) ∧
      spec.loss.isSome ∧ spec.train_op.isSome ∧ spec.eval_metric_ops = none ∧
      spec.predictions = none) ∧
    (∃ eff spec, model_fn env learning_rate num_train_steps num_warmup_steps
        (featuresOf input_ids input_mask segment_ids label_ids) labels
        ModeKeys.EVAL params = .ok (eff, spec) ∧
      spec.loss.isSome ∧ spec.eval_metric_ops.isSome ∧ spec.train_op = none ∧
      spec.predictions = none) :=
  ⟨⟨_, _, rfl, rfl, rfl, rfl, rfl⟩, ⟨_, _, rfl, rfl, rfl, rfl, rfl⟩,
    ⟨_, _, rfl, rfl, rfl, rfl, rfl⟩⟩

/-- C2 (counterexample).  At a concrete all-zero input in TRAIN mode,
`model_fn`'s trace contains a call to `metric_fn`: the metric aggregator IS
invoked when the mode is TRAIN (its result is merely discarded), refuting the
claim that it is never invoked in TRAIN mode. -/
theorem claim_c2_counterexample :
    ∃ eff spec, model_fn zeroEnv 0.01 10 5
      (featuresOf (fun _ _ => 0) (fun _ _ => 0) (fun _ _ => 0) (fun _ => 0))
      () ModeKeys.TRAIN () = .ok (eff, spec) ∧ Effect.callMetricFn ∈ eff :=
  ⟨_, _, rfl, by decide⟩

/-- C2 (amended).  `metric_fn` is never invoked on the PREDICT path; it is
invoked on both the TRAIN and the EVAL paths, but its result is attached to
the output bundle only in EVAL mode (TRAIN discards it). -/
theorem claim_c2 {B L H : ℕ} (n : ℕ) {α β : Type} (env : ModelEnv B L H (n + 1))
    (learning_rate : ℝ) (num_train_steps num_warmup_steps : ℕ)
    (input_ids input_mask segment_ids : Fin B → Fin L → ℤ)
    (label_ids : Fin B → ℤ) (labels : α) (params : β) :
    (∃ eff spec, model_fn env learning_rate num_train_steps num_warmup_steps
        (featuresOf input_ids input_mask segment_ids label_ids) labels
        ModeKeys.PREDICT params = .ok (eff, spec) ∧
      Effect.callMetricFn ∉ eff ∧ spec.eval_metric_ops = none) ∧
    (∃ eff spec, model_fn env learning_rate num_train_steps num_warmup_steps
        (featuresOf input_ids input_mask segment_ids label_ids) labels
        ModeKeys.TRAIN params = .ok (eff, spec) ∧
      Effect.callMetricFn ∈ eff ∧ spec.eval_metric_ops = none) ∧
    (∃ eff spec, model_fn env learning_rate num_train_steps num_warmup_steps
        (featuresOf input_ids input_mask segment_ids label_ids) labels
        ModeKeys.EVAL params = .ok (eff, spec) ∧
      Effect.callMetricFn ∈ eff ∧ spec.eval_metric_ops.isSome) :=
  ⟨⟨_, _, rfl, by decide, rfl⟩, ⟨_, _, rfl, by decide, rfl⟩,
    ⟨_, _, rfl, by decide, rfl⟩⟩

/-- C10.  In EVAL mode `model_fn` performs exactly the same calls as in TRAIN
mode — in particular it invokes the external optimizer constructor — yet its
EVAL output bundle carries only the loss and the metrics bundle and discards
the training step, which the TRAIN bundle does carry. -/
theorem claim_c10 {B L H : ℕ} (n : ℕ) {α β : Type}
    (env : ModelEnv B L H (n + 1))
    (learning_rate : ℝ) (num_train_steps num_warmup_steps : ℕ)
    (input_ids input_mask segment_ids : Fin B → Fin L → ℤ)
    (label_ids : Fin B → ℤ) (labels : α) (params : β) :
    ∃ effT specT effE specE,
      model_fn env learning_rate num_train_steps num_warmup_steps
        (featuresOf input_ids input_mask segment_ids label_ids) labels
        ModeKeys.TRAIN params = .ok (effT, specT) ∧
      model_fn env learning_rate num_train_steps num_warmup_steps
        (featuresOf input_ids input_mask segment_ids label_ids) labels
        ModeKeys.EVAL params = .ok (effE, specE) ∧
      effE = effT ∧ Effect.callCreateOptimizer ∈ effE ∧
      specE.loss.isSome ∧ specE.eval_metric_ops.isSome ∧
      specE.train_op = none ∧ specT.train_op.isSome :=
  ⟨_, _, _, _, rfl, rfl, rfl, by decide, rfl, rfl, rfl, rfl⟩

/-- C9.  `model_fn` reads `features["label_ids"]` unconditionally before
branching on the mode, so a features dictionary lacking the key
`"label_ids"` makes `model_fn` fail in every mode, prediction included. -/
theorem claim_c9 {B L H : ℕ} (n : ℕ) {α β : Type} (env : ModelEnv B L H (n + 1))
    (learning_rate : ℝ) (num_train_steps num_warmup_steps : ℕ)
    (features : Features B L)
    (hmissing : features.entries "label_ids" = none)
    (labels : α) (mode : String) (params : β) :
    ∃ msg, model_fn env learning_rate num_train_steps num_warmup_steps
      features labels mode params = .error msg := by
  have hlid : features.getIds "label_ids" =
      Except.error ("KeyError: " ++ "label_ids") := by
    simp [Features.getIds, hmissing]
  unfold model_fn
  rcases h1 : features.getSeq "input_ids" with m1 | v1
  · exact ⟨m1, by simp [h1, Bind.bind, Except.bind]⟩
  rcases h2 : features.getSeq "input_mask" with m2 | v2
  · exact ⟨m2, by simp [h1, h2, Bind.bind, Except.bind]⟩
  rcases h3 : features.getSeq "segment_ids" with m3 | v3
  · exact ⟨m3, by simp [h1, h2, h3, Bind.bind, Except.bind]⟩
  · exact ⟨"KeyError: label_ids", by simp [h1, h2, h3, hlid, Bind.bind, Except.bind]⟩

/-- C9, instantiated: the empty features dict lacks `"label_ids"`, and
`model_fn` on it fails even in PREDICT mode. -/
theorem claim_c9_witness :
    (emptyFeatures 1 1).entries "label_ids" = none ∧
      ∃ msg, model_fn zeroEnv 0.01 10 5 (emptyFeatures 1 1) ()
        ModeKeys.PREDICT () = .error msg :=
  ⟨rfl, claim_c9 0 zeroEnv 0.01 10 5 (emptyFeatures 1 1) rfl ()
    ModeKeys.PREDICT ()⟩

/-- On the train/eval path `create_model` returns the triple of the mean
cross-entropy loss, the squeezed argmax and the log-softmax rows, all built
from `logitsOf`. -/
theorem create_model_false_eq {B L H : ℕ} (n : ℕ) (env : ModelEnv B L H (n + 1))
    (input_ids input_mask segment_ids : Fin B → Fin L → ℤ)
    (labels : Fin B → ℤ) :
    create_model env false input_ids input_mask segment_ids labels =
      .trainEval
        (tf_reduce_mean fun i => -(∑ j, tf_one_hot (labels i) (n + 1) j *
          tf_log_softmax (logitsOf env input_ids input_mask segment_ids i) j))
        (tf_squeeze fun i =>
          tf_argmax (tf_log_softmax (logitsOf env input_ids input_mask segment_ids i)))
        (fun i => tf_log_softmax (logitsOf env input_ids input_mask segment_ids i)) :=
  rfl

/-- The per-example cross-entropy against a log-softmax row is nonnegative
whenever the label is in range. -/
theorem per_example_loss_nonneg {n : ℕ} (l : ℤ) (h0 : 0 ≤ l)
    (h1 : l < ((n : ℤ) + 1)) (x : Fin (n + 1) → ℝ) :
    0 ≤ -(∑ j, tf_one_hot l (n + 1) j * tf_log_softmax x j) := by
  have hlt : l.toNat < n + 1 := by omega
  have hjl : (((⟨l.toNat, hlt⟩ : Fin (n + 1)) : ℕ) : ℤ) = l := by
    simp [Int.toNat_of_nonneg h0]
  rw [sum_one_hot_mul l ⟨l.toNat, hlt⟩ hjl]
  simpa [neg_nonneg] using tf_log_softmax_nonpos x ⟨l.toNat, hlt⟩

/-- In the limit environment the logits row of example `i` is `t / 0.9` at the
label index and `0` elsewhere. -/
theorem oneHotEnv_logits (B n : ℕ) (labels : Fin B → ℤ) (t : ℝ)
    (i : Fin B) (j : Fin (n + 1)) :
    logitsOf (oneHotEnv B n labels t) (fun _ _ => 0) (fun _ _ => 0)
      (fun _ _ => 0) i j = if ((j : ℕ) : ℤ) = labels i then t / 0.9 else 0 := by
  simp only [logitsOf, oneHotEnv, tf_bias_add, tf_matmul_transpose_b,
    tf_nn_dropout, if_true, add_zero]
  rw [Finset.sum_eq_single j]
  · split <;> simp
  · intro k _ hk
    simp [if_neg (Ne.symm hk)]
  · simp

/-- Summing the exponentials of a row that is `s` at one index and `0` at the
`n` others gives `exp s + n`. -/
theorem oneHotEnv_sum_exp {n : ℕ} (li : ℤ) (jl : Fin (n + 1))
    (hjl : ((jl : ℕ) : ℤ) = li) (s : ℝ) :
    ∑ k : Fin (n + 1), Real.exp (if ((k : ℕ) : ℤ) = li then s else 0) =
      Real.exp s + n := by
  have hpt : ∀ k : Fin (n + 1),
      Real.exp (if ((k : ℕ) : ℤ) = li then s else 0) =
        (if k = jl then Real.exp s - 1 else 0) + 1 := by
    intro k
    by_cases hk : k = jl
    · subst hk
      rw [if_pos hjl, if_pos rfl]
      ring
    · have hne : ((k : ℕ) : ℤ) ≠ li := by
        intro he
        exact hk (Fin.ext (by exact_mod_cast hjl ▸ he))
      rw [if_neg hne, if_neg hk]
      simp
  rw [Finset.sum_congr rfl (fun k _ => hpt k), Finset.sum_add_distrib,
    Finset.sum_ite_eq' Finset.univ jl (fun _ => Real.exp s - 1)]
  simp [Finset.card_univ]

/-- Closed form for the loss of `create_model` on the limit environment: every
example contributes `log (exp (t/0.9) + n) - t/0.9`. -/
theorem oneHotEnv_loss (B n : ℕ) (labels : Fin B → ℤ)
    (hvalid : ∀ i, 0 ≤ labels i ∧ labels i < ((n : ℤ) + 1)) (t : ℝ) :
    ((create_model (oneHotEnv B n labels t) false (fun _ _ => 0)
      (fun _ _ => 0) (fun _ _ => 0) labels).lossOf).getD 0 =
      ((B : ℝ) * (Real.log (Real.exp (t / 0.9) + n) - t / 0.9)) / B := by
  rw [create_model_false_eq, CreateModelResult.lossOf, Option.getD_some]
  have hper : ∀ i : Fin B,
      -(∑ j, tf_one_hot (labels i) (n + 1) j *
        tf_log_softmax (logitsOf (oneHotEnv B n labels t) (fun _ _ => 0)
          (fun _ _ => 0) (fun _ _ => 0) i) j) =
        Real.log (Real.exp (t / 0.9) + n) - t / 0.9 := by
    intro i
    have hlt : (labels i).toNat < n + 1 := by
      have := hvalid i
      omega
    have hjl : (((⟨(labels i).toNat, hlt⟩ : Fin (n + 1)) : ℕ) : ℤ) = labels i := by
      simp [Int.toNat_of_nonneg (hvalid i).1]
    rw [sum_one_hot_mul (labels i) ⟨(labels i).toNat, hlt⟩ hjl]
    have hrowfun : (logitsOf (oneHotEnv B n labels t) (fun _ _ => 0)
        (fun _ _ => 0) (fun _ _ => 0) i) =
        (fun j : Fin (n + 1) => if ((j : ℕ) : ℤ) = labels i then t / 0.9 else 0) :=
      funext (fun j => oneHotEnv_logits B n labels t i j)
    rw [hrowfun]
    simp only [tf_log_softmax]
    rw [oneHotEnv_sum_exp (labels i) ⟨(labels i).toNat, hlt⟩ hjl (t / 0.9),
      if_pos hjl]
    ring
  rw [tf_reduce_mean, Finset.sum_congr rfl (fun i _ => hper i)]
  simp [Finset.card_univ, nsmul_eq_mul]

/-- As the hot logit grows, the per-example cross-entropy
`log (exp s + n) - s` vanishes. -/
theorem tendsto_log_exp_sub (n : ℕ) :
    Tendsto (fun s : ℝ => Real.log (Real.exp s + n) - s) atTop (nhds 0) := by
  have heq : ∀ s : ℝ, Real.log (Real.exp s + n) - s =
      Real.log (1 + n * Real.exp (-s)) := by
    intro s
    have hpos : (0 : ℝ) < Real.exp s + n := by positivity
    have hmul : (Real.exp s + n) * Real.exp (-s) = 1 + n * Real.exp (-s) := by
      rw [add_mul, ← Real.exp_add]
      simp
    rw [← hmul, Real.log_mul (ne_of_gt hpos) (Real.exp_ne_zero _),
      Real.log_exp]
    ring
  have htail : Tendsto (fun s : ℝ => 1 + n * Real.exp (-s)) atTop (nhds 1) := by
    have h0 : Tendsto (fun s : ℝ => (n : ℝ) * Real.exp (-s)) atTop (nhds 0) := by
      simpa using (Real.tendsto_exp_neg_atTop_nhds_zero).const_mul (n : ℝ)
    simpa using tendsto_const_nhds.add h0
  have hlog : Tendsto (fun s : ℝ => Real.log (1 + n * Real.exp (-s))) atTop
      (nhds 0) := by
    have := (Real.continuousAt_log (by norm_num : (1 : ℝ) ≠ 0)).tendsto.comp htail
    simpa using this
  exact Tendsto.congr (fun s => (heq s).symm) hlog

/-- C7.  For every batch with valid labels (each label in `[0, num_labels)`),
the loss returned by `create_model` is non-negative, and it tends to `0` in
the limit where the predicted distribution tends to the one-hot vector
matching each example's label (realised inside `create_model` by the
environment `oneHotEnv`, whose softmax distribution concentrates on the true
label of every example as `t → ∞`; an exact one-hot softmax output is not
attainable at any finite logits, so the second clause is a limit, as the
claim says). -/
theorem claim_c7 (B n : ℕ) (labels : Fin B → ℤ)
    (hvalid : ∀ i, 0 ≤ labels i ∧ labels i < ((n : ℤ) + 1)) :
    (∀ (L H : ℕ) (env : ModelEnv B L H (n + 1))
        (input_ids input_mask segment_ids : Fin B → Fin L → ℤ)
        (loss : ℝ) (pl : Fin B → Fin (n + 1)) (lp : Fin B → Fin (n + 1) → ℝ),
        create_model env false input_ids input_mask segment_ids labels =
          .trainEval loss pl lp → 0 ≤ loss) ∧
      Tendsto (fun t => ((create_model (oneHotEnv B n labels t) false
        (fun _ _ => 0) (fun _ _ => 0) (fun _ _ => 0) labels).lossOf).getD 0)
        atTop (nhds 0) := by
  constructor
  · intro L H env i1 i2 i3 loss pl lp heq
    rw [create_model_false_eq] at heq
    obtain ⟨hl, -, -⟩ := CreateModelResult.trainEval.inj heq
    subst hl
    apply div_nonneg _ (Nat.cast_nonneg B)
    exact Finset.sum_nonneg fun i _ =>
      per_example_loss_nonneg (labels i) (hvalid i).1 (hvalid i).2 _
  · have hrw : ∀ t : ℝ, ((create_model (oneHotEnv B n labels t) false
        (fun _ _ => 0) (fun _ _ => 0) (fun _ _ => 0) labels).lossOf).getD 0 =
        ((B : ℝ) / B) * (Real.log (Real.exp (t / 0.9) + n) - t / 0.9) := by
      intro t
      rw [oneHotEnv_loss B n labels hvalid t]
      ring
    rw [funext hrw]
    have hs : Tendsto (fun t : ℝ => t / 0.9) atTop atTop :=
      tendsto_id.atTop_div_const (by norm_num)
    have hcomp : Tendsto
        (fun t : ℝ => Real.log (Real.exp (t / 0.9) + n) - t / 0.9) atTop
        (nhds 0) := (tendsto_log_exp_sub n).comp hs
    simpa using hcomp.const_mul ((B : ℝ) / B)

/-- C7, instantiated at a one-example batch with two labels and the constant
label `0`: the validity hypothesis holds and both clauses follow. -/
theorem claim_c7_witness :
    (∀ i : Fin 1, 0 ≤ (fun _ : Fin 1 => (0 : ℤ)) i ∧
        (fun _ : Fin 1 => (0 : ℤ)) i < ((1 : ℤ) + 1)) ∧
      ((∀ (L H : ℕ) (env : ModelEnv 1 L H (1 + 1))
          (input_ids input_mask segment_ids : Fin 1 → Fin L → ℤ)
          (loss : ℝ) (pl : Fin 1 → Fin (1 + 1)) (lp : Fin 1 → Fin (1 + 1) → ℝ),
          create_model env false input_ids input_mask segment_ids
            (fun _ : Fin 1 => (0 : ℤ)) = .trainEval loss pl lp → 0 ≤ loss) ∧
        Tendsto (fun t => ((create_model (oneHotEnv 1 1 (fun _ => 0) t) false
          (fun _ _ => 0) (fun _ _ => 0) (fun _ _ => 0)
          (fun _ : Fin 1 => (0 : ℤ))).lossOf).getD 0) atTop (nhds 0)) :=
  ⟨by decide, claim_c7 1 1 (fun _ => 0) (by decide)⟩
